import Mathlib

/-!
Verification of the IdPass attendance/activity synchronization engine.

Shallow embedding of the relevant source functions:
  * `src/main/firebase_db.py`  — remote (Firestore) store operations, period
    table, and the period-end boundary sweep;
  * `src/main/hybrid_db.py`    — sync coordinator (dirty set, retry with
    backoff, pull-phase merge);
  * `src/online_first_db.py`   — offline/online mode controller;
  * `src/nfc_reader_gui.py`    — GUI period resolver.

Instants are modelled as `Nat` seconds; the time-of-day of an instant `t` is
`t % 86400` and its day number is `t / 86400` (mirroring Python's
`dt.time()` / `dt.date()` and `datetime.combine(date, time)`).
-/

namespace IdPass

/-- A school period from the `PERIODS` table of `firebase_db.py`
(tuple `(period, start, end)`; `start`/`end` are times of day, here in
seconds since midnight).  The source's `end` field is named `endTime`
because `end` is a Lean keyword. -/
structure Period where
  label : String
  start : Nat
  endTime : Nat
  deriving Repr, DecidableEq

/-- The module-level `PERIODS` constant of `src/main/firebase_db.py`
(lines 16-27): `(1, time(7,25), time(8,8))` … `(9, time(13,47), time(14,30))`. -/
def PERIODS : List Period :=
  [ ⟨"1", 7*3600 + 25*60, 8*3600 + 8*60⟩,
    ⟨"2", 8*3600 + 12*60, 8*3600 + 55*60⟩,
    ⟨"HR", 8*3600 + 55*60, 9*3600 + 1*60⟩,
    ⟨"3", 9*3600 + 5*60, 9*3600 + 48*60⟩,
    ⟨"4", 9*3600 + 52*60, 10*3600 + 35*60⟩,
    ⟨"5", 10*3600 + 39*60, 11*3600 + 22*60⟩,
    ⟨"6", 11*3600 + 26*60, 12*3600 + 9*60⟩,
    ⟨"7", 12*3600 + 13*60, 12*3600 + 56*60⟩,
    ⟨"8", 13*3600, 13*3600 + 43*60⟩,
    ⟨"9", 13*3600 + 47*60, 14*3600 + 30*60⟩ ]

/-- Embeds `get_period_for_time` (`src/main/firebase_db.py` lines 30-37 and
the identical method at lines 104-110): `t = dt.time()`; return the first
`(period, end)` with `start <= t <= end`, else `(None, None)`. -/
def get_period_for_time (periods : List Period) (dt : Nat) : Option (String × Nat) :=
  let t := dt % 86400
  (periods.find? (fun p => decide (p.start ≤ t) && decide (t ≤ p.endTime))).map
    (fun p => (p.label, p.endTime))

/-- One entry of the GUI `SCHEDULE` constant of `src/nfc_reader_gui.py`
(`(name, (sh, sm), (eh, em))`), with start/stop as seconds since midnight.
The source's `end_dt` is named `stop` because `end` is a Lean keyword. -/
structure SchedPeriod where
  name : String
  start : Nat
  stop : Nat
  deriving Repr, DecidableEq

/-- The loop body of `_determine_current_period`
(`src/nfc_reader_gui.py` lines 431-438): for each period test
`start_dt <= now < end_dt` (return its name), then the passing window
`end_dt <= now < next_start` (return "Passing"); `none` if no test fires. -/
def scanPeriods (now : Nat) : List SchedPeriod → Option String
  | [] => none
  | [p] => if p.start ≤ now ∧ now < p.stop then some p.name else none
  | p :: q :: rest =>
    if p.start ≤ now ∧ now < p.stop then some p.name
    else if p.stop ≤ now ∧ now < q.start then some "Passing"
    else scanPeriods now (q :: rest)

/-- Embeds `_determine_current_period` (`src/nfc_reader_gui.py` lines 421-445):
the loop above, then `now < periods[0].start → "Before School"`,
`now >= periods[-1].end → "After School"`, else `""`.  The source indexes
`periods[0]` / `periods[-1]`, so it is only ever run on its non-empty
`SCHEDULE` constant; on `[]` we return `""`. -/
def determineCurrentPeriod (sched : List SchedPeriod) (now : Nat) : String :=
  match scanPeriods now sched with
  | some s => s
  | none =>
    match sched.head?, sched.getLast? with
    | some p0, some pL =>
      if now < p0.start then "Before School"
      else if pL.stop ≤ now then "After School"
      else ""
    | _, _ => ""

/-- Well-ordering of a schedule table as assumed by the spec: each period is
non-degenerate and periods do not overlap, listed in order
(`start_i ≤ stop_i ≤ start_{i+1}`). -/
def schedOrdered : List SchedPeriod → Prop
  | [] => True
  | [p] => p.start ≤ p.stop
  | p :: q :: rest => p.start ≤ p.stop ∧ p.stop ≤ q.start ∧ schedOrdered (q :: rest)

/-! ## Firestore data model (`src/main/firebase_db.py`) -/

/-- A document of the `students` collection: document id (the NFC UID if one
is assigned, else the school id) plus the `nfc_uid` / `student_id` / `name`
fields. -/
structure StudentDoc where
  docId : String
  nfc_uid : String
  student_id : String
  name : String
  deriving Repr, DecidableEq

/-- A document of the `attendance` collection.  The source stores the open
check-out as the empty string; we model an absent check-out as `none`.
`date` is the day number (`datetime.now().date()`), `check_in` the check-in
instant. -/
structure AttendanceDoc where
  student_uid : String
  date : Nat
  check_in : Nat
  check_out : Option Nat
  scheduled_check_out : Option Nat
  deriving Repr, DecidableEq

/-- A document of the `bathroom_breaks` collection (`nurse_visits` and
`water_visits` documents have the same shape with fields `visit_start` /
`visit_end` / `duration_minutes`; the code handling them is verbatim the
same, so one record type embeds all three kinds). -/
structure BreakDoc where
  student_uid : String
  break_start : Nat
  break_end : Option Nat
  duration_minutes : Option Nat
  deriving Repr, DecidableEq

/-- The Firestore collections that the embedded operations touch. -/
structure FirebaseState where
  students : List StudentDoc
  attendance : List AttendanceDoc
  bathroom_breaks : List BreakDoc
  nurse_visits : List BreakDoc
  water_visits : List BreakDoc
  periods : List Period
  deriving Repr

/-- Python truthiness of an optional string argument (`if nfc_uid:`):
`None` and the empty string are falsy. -/
def strTruthy : Option String → Bool
  | none => false
  | some v => !v.isEmpty

/-- Embeds `get_identifier` (`firebase_db.py` lines 176-184): the NFC UID if
truthy, else the student id if truthy, else `None`. -/
def get_identifier (nfc_uid student_id : Option String) : Option String :=
  if strTruthy nfc_uid then nfc_uid
  else if strTruthy student_id then student_id
  else none

/-- Embeds `get_student_by_uid` (`firebase_db.py` lines 147-158): fetch the
`students` document whose id is the UID. -/
def get_student_by_uid (s : FirebaseState) (nfc_uid : String) : Option (String × String) :=
  (s.students.find? (fun d => d.docId == nfc_uid)).map (fun d => (d.student_id, d.name))

/-- Embeds `get_student_by_student_id` (`firebase_db.py` lines 160-174): first
`students` document with the given `student_id` field. -/
def get_student_by_student_id (s : FirebaseState) (student_id : String) :
    Option (String × String) :=
  (s.students.find? (fun d => d.student_id == student_id)).map
    (fun d => (d.nfc_uid, d.name))

/-- Embeds `get_student_name` (`firebase_db.py` lines 185-204): name of the
document with id `identifier`, else of the first document whose
`student_id` is `identifier`, else `"Unknown Student"`. -/
def get_student_name (s : FirebaseState) (identifier : String) : String :=
  match s.students.find? (fun d => d.docId == identifier) with
  | some d => d.name
  | none =>
    match s.students.find? (fun d => d.student_id == identifier) with
    | some d => d.name
    | none => "Unknown Student"

/-- Embeds `is_checked_in` (`firebase_db.py` lines 263-274): does an `attendance`
document with this student and today's date exist (open or not)? -/
def is_checked_in (s : FirebaseState) (identifier : String) (today : Nat) : Bool :=
  s.attendance.any (fun a => a.student_uid == identifier && a.date == today)

/-- Embeds `check_in` (`firebase_db.py` lines 206-261).  Mirrors the source:
resolve the identifier, look the student up (by UID when a UID argument was
given, else by student id), reject a second check-in on the same date, set
`scheduled_check_out` to today's instant of the current period's end (if a
period is active), and append the new document with an open check-out.
`now` is the `datetime.now()` instant. -/
def check_in (s : FirebaseState) (nfc_uid student_id : Option String) (now : Nat) :
    (Bool × String) × FirebaseState :=
  match get_identifier nfc_uid student_id with
  | none => ((false, "No student identifier provided"), s)
  | some identifier =>
    let student_info :=
      if strTruthy nfc_uid then get_student_by_uid s (nfc_uid.getD "")
      else get_student_by_student_id s (student_id.getD "")
    if student_info.isNone then ((false, "Student not found in database"), s)
    else
      let today := now / 86400
      if is_checked_in s identifier today then
        ((false, "Already checked in today"), s)
      else
        let scheduled_check_out :=
          (get_period_for_time s.periods now).map (fun pe => today * 86400 + pe.2)
        let doc : AttendanceDoc :=
          ⟨identifier, today, now, none, scheduled_check_out⟩
        ((true, "Checked in successfully"), { s with attendance := s.attendance ++ [doc] })

/-- Embeds `is_on_break` (`firebase_db.py` lines 276-286): does this student have
an open (`break_end == None`) bathroom break document? -/
def is_on_break (s : FirebaseState) (identifier : String) : Bool :=
  s.bathroom_breaks.any (fun b => b.student_uid == identifier && b.break_end.isNone)

/-- The update loop of `end_bathroom_break`: close the first open break
document of the student at `now` with
`duration = int((end - start).total_seconds() / 60)`; `none` if the student
has no open break. -/
def endFirstOpenBreak (identifier : String) (now : Nat) :
    List BreakDoc → Option (List BreakDoc)
  | [] => none
  | b :: rest =>
    if b.student_uid == identifier && b.break_end.isNone then
      some ({ b with break_end := some now,
                     duration_minutes := some ((now - b.break_start) / 60) } :: rest)
    else (endFirstOpenBreak identifier now rest).map (b :: ·)

/-- Embeds `end_bathroom_break` (`firebase_db.py` lines 344-370). -/
def end_bathroom_break (s : FirebaseState) (identifier : String) (now : Nat) :
    (Bool × String) × FirebaseState :=
  match endFirstOpenBreak identifier now s.bathroom_breaks with
  | some breaks => ((true, "Break ended"), { s with bathroom_breaks := breaks })
  | none => ((false, "Student is not on a break"), s)

/-- The body of `start_bathroom_break` after the auto-check-in step
(`firebase_db.py` lines 303-336): if the student already has an open
break, end it instead ("toggle"); reject when any *other* student has an
open break; otherwise append a new open break document. -/
def start_bathroom_break_core (s1 : FirebaseState) (identifier : String) (now : Nat) :
    (Bool × String) × FirebaseState :=
  if is_on_break s1 identifier then
    match end_bathroom_break s1 identifier now with
    | ((true, _), s2) => ((true, "Previous break ended, ready for new activities"), s2)
    | ((false, msg), s2) => ((false, "Failed to end previous break: " ++ msg), s2)
  else
    match s1.bathroom_breaks.find?
        (fun b => b.break_end.isNone && b.student_uid != identifier) with
    | some other =>
      ((false, "Another student (" ++ get_student_name s1 other.student_uid
          ++ ") is already on a break"), s1)
    | none =>
      let doc : BreakDoc := ⟨identifier, now, none, none⟩
      ((true, "Break started"), { s1 with bathroom_breaks := s1.bathroom_breaks ++ [doc] })

/-- Embeds `start_bathroom_break` (`firebase_db.py` lines 288-342).  In source
order: auto-check-in when not yet checked in (as a UID when the identifier
starts with `TEST` or is longer than 10 characters, else as a student id),
failing the whole call when the check-in fails; then the break logic of
`start_bathroom_break_core`. -/
def start_bathroom_break (s : FirebaseState) (identifier : String) (now : Nat) :
    (Bool × String) × FirebaseState :=
  match (if is_checked_in s identifier (now / 86400) then ((true, ""), s)
         else if identifier.startsWith "TEST" || decide (identifier.length > 10) then
           check_in s (some identifier) none now
         else check_in s none (some identifier) now) with
  | ((false, msg), s1) => ((false, "Auto-check-in failed: " ++ msg), s1)
  | ((true, _), s1) => start_bathroom_break_core s1 identifier now

/-- Count of currently open bathroom break documents (the spec's
hall-pass invariant counts these across all students). -/
def openBreakCount (s : FirebaseState) : Nat :=
  (s.bathroom_breaks.filter (fun b => b.break_end.isNone)).length

/-! ## Boundary sweep (`src/main/firebase_db.py` lines 751-860,
mirrored in `src/main/hybrid_db.py` lines 1079-1198) -/

/-- The per-collection body of `_auto_end_breaks_and_visits_at_period_end`:
close every open record whose start precedes `period_end` at
`period_end` with `duration = int((period_end - start).total_seconds()/60)`. -/
def autoEndOpenDocs (period_end : Nat) (docs : List BreakDoc) : List BreakDoc :=
  docs.map (fun b =>
    if b.break_end.isNone && decide (b.break_start < period_end) then
      { b with break_end := some period_end,
               duration_minutes := some ((period_end - b.break_start) / 60) }
    else b)

/-- Embeds `_auto_end_breaks_and_visits_at_period_end` (`firebase_db.py` lines
751-860): resolve the period containing `now`; if none, return; build
`period_end_dt = datetime.combine(now.date(), period_end_time)`; if
`now <= period_end_dt`, return; else close every open bathroom break,
nurse visit and water visit that started before `period_end_dt`. -/
def auto_end_breaks_and_visits_at_period_end (s : FirebaseState) (now : Nat) :
    FirebaseState :=
  match get_period_for_time s.periods now with
  | none => s
  | some (_, period_end_time) =>
    let period_end_dt := (now / 86400) * 86400 + period_end_time
    if now ≤ period_end_dt then s
    else
      { s with
        bathroom_breaks := autoEndOpenDocs period_end_dt s.bathroom_breaks,
        nurse_visits := autoEndOpenDocs period_end_dt s.nurse_visits,
        water_visits := autoEndOpenDocs period_end_dt s.water_visits }

/-- The duration postcondition the spec states for every activity record:
`duration_minutes` is null while the record is open, and on a closed record
it is the whole-minute floor of the elapsed time (`end ≥ start` and
`duration = (end - start) / 60` in seconds, Nat division = floor). -/
def BreakInv (b : BreakDoc) : Prop :=
  (b.break_end = none → b.duration_minutes = none) ∧
  ∀ e, b.break_end = some e →
    b.break_start ≤ e ∧ b.duration_minutes = some ((e - b.break_start) / 60)

/-! ## Retry with backoff (`src/main/hybrid_db.py` lines 156-175; the copy
at `src/hybrid_db.py` lines 130-149 is byte-identical) -/

/-- Outcome of one invocation of the wrapped remote call: a returned value
or a raised exception with its message. -/
inductive CallOutcome where
  | ok (v : Nat)
  | err (msg : String)
  deriving Repr, DecidableEq

/-- The transient-error test of `_retry_with_backoff`:
`"429" in error_msg or "Quota exceeded" in error_msg`. -/
def isQuotaError (msg : String) : Bool :=
  decide ("429".toList <:+: msg.toList) || decide ("Quota exceeded".toList <:+: msg.toList)

/-- Result of a `_retry_with_backoff` run: the surfaced result (`.error` =
the exception re-raised to the caller; `.ok none` = the Python loop body
never ran, so the function fell through returning `None`), the number of
invocations of the wrapped call, and the sleeps performed (seconds). -/
structure RetryResult where
  result : Except String (Option Nat)
  calls : Nat
  waits : List ℚ
  deriving Repr

/-- The `for attempt in range(max_retries)` loop of `_retry_with_backoff`.
`func i` is the outcome of the `i`-th invocation, `jitter i` the value
`random.uniform(0, 1)` drawn before the `i`-th sleep.  On a transient
(`isQuotaError`) failure with `attempt < max_retries - 1`, sleep
`min(2 ^ attempt + jitter, 64)` and continue; on the last attempt or on a
non-transient failure, re-raise. `remaining` is the fuel
`max_retries - attempt`. -/
def retryGo (func : Nat → CallOutcome) (jitter : Nat → ℚ) (max_retries : Nat) :
    Nat → Nat → RetryResult
  | _, 0 => ⟨.ok none, 0, []⟩
  | attempt, remaining + 1 =>
    match func attempt with
    | .ok v => ⟨.ok (some v), 1, []⟩
    | .err msg =>
      if isQuotaError msg then
        if attempt < max_retries - 1 then
          let w := min ((2 : ℚ) ^ attempt + jitter attempt) 64
          let r := retryGo func jitter max_retries (attempt + 1) remaining
          ⟨r.result, r.calls + 1, w :: r.waits⟩
        else ⟨.error msg, 1, []⟩
      else ⟨.error msg, 1, []⟩

/-- Embeds `_retry_with_backoff(func, max_retries)` (`src/main/hybrid_db.py`
lines 156-175). -/
def retry_with_backoff (func : Nat → CallOutcome) (jitter : Nat → ℚ)
    (max_retries : Nat) : RetryResult :=
  retryGo func jitter max_retries 0 max_retries

/-! ## Dirty set and the push cycle (`src/main/hybrid_db.py` lines 26-47,
177-218, 820-826) -/

/-- The five per-table members of `self.pending_changes` (sets of changed
record keys, modelled as lists). -/
structure PendingChanges where
  students : List String
  attendance : List String
  bathroom_breaks : List String
  nurse_visits : List String
  water_visits : List String
  deriving Repr, DecidableEq

/-- Embeds `_track_change(table, record_id)` (`hybrid_db.py` lines 820-826): add
the record id (or the marker `'modified'` when none is given) to the
table's pending set. -/
def track_change (pc : PendingChanges) (table : String) (record_id : Option String) :
    PendingChanges :=
  let key := record_id.getD "modified"
  if table == "students" then { pc with students := pc.students.insert key }
  else if table == "attendance" then { pc with attendance := pc.attendance.insert key }
  else if table == "bathroom_breaks" then
    { pc with bathroom_breaks := pc.bathroom_breaks.insert key }
  else if table == "nurse_visits" then
    { pc with nurse_visits := pc.nurse_visits.insert key }
  else if table == "water_visits" then
    { pc with water_visits := pc.water_visits.insert key }
  else pc

/-- Whether every pending set is empty
(`if not any(self.pending_changes.values())`). -/
def PendingChanges.allEmpty (pc : PendingChanges) : Bool :=
  pc.students.isEmpty && pc.attendance.isEmpty && pc.bathroom_breaks.isEmpty &&
    pc.nurse_visits.isEmpty && pc.water_visits.isEmpty

/-- The environment of one push cycle: whether each per-table
`_sync_<table>_to_firestore` call returns normally or raises.  The source
push helpers (lines 510-819) contain no exception handler around their
Firestore writes, so an error propagates to `sync_to_firestore`'s `try`. -/
structure PushResults where
  students : Except String Unit
  attendance : Except String Unit
  bathroom_breaks : Except String Unit
  nurse_visits : Except String Unit
  water_visits : Except String Unit

/-- The guarded sequence of per-table pushes inside the `try` block of
`sync_to_firestore` (lines 186-207): each table's push runs only if its pending set
is non-empty; the first raised exception aborts the sequence. -/
def runPushes (pc : PendingChanges) (env : PushResults) : Except String Unit := do
  if !pc.students.isEmpty then env.students
  if !pc.attendance.isEmpty then env.attendance
  if !pc.bathroom_breaks.isEmpty then env.bathroom_breaks
  if !pc.nurse_visits.isEmpty then env.nurse_visits
  if !pc.water_visits.isEmpty then env.water_visits

/-- Embeds `sync_to_firestore` (`hybrid_db.py` lines 177-218), restricted to its
effect on the dirty set: return unchanged when every set is empty; run the
per-table pushes in order; if all return, clear every pending set; if one
raises, the exception is caught (lines 216-218) and the pending sets are
left untouched. -/
def sync_to_firestore (pc : PendingChanges) (env : PushResults) : PendingChanges :=
  if pc.allEmpty then pc
  else
    match runPushes pc env with
    | .ok _ => ⟨[], [], [], [], []⟩
    | .error _ => pc

/-! ## Pull phase (`src/main/hybrid_db.py` lines 260-509)

Local SQLite rows have the same field content as the Firestore documents,
so the `AttendanceDoc` / `BreakDoc` record types also embed local rows. -/

/-- Modelled from the spec: the local SQLite schema lives in
`student_db.py`, which is not under `src/`; per spec §4.1 "All writes are
upserts keyed by primary identifier (or composite key for time-series
records)", so the local `attendance` table is keyed by
`(student_uid, date)` and SQLite's `INSERT OR REPLACE` replaces the
existing row with that key (else appends). -/
def upsertAttendanceRow (tbl : List AttendanceDoc) (row : AttendanceDoc) :
    List AttendanceDoc :=
  if tbl.any (fun r => r.student_uid == row.student_uid && r.date == row.date) then
    tbl.map (fun r =>
      if r.student_uid == row.student_uid && r.date == row.date then row else r)
  else tbl ++ [row]

/-- Embeds `_sync_attendance_from_firestore` (`hybrid_db.py` lines 260-289): for
every remote attendance document with today's date, execute
`INSERT OR REPLACE INTO attendance` with the remote field values —
unconditionally, with no look at the local row's `check_out`. -/
def sync_attendance_from_firestore (remote : List AttendanceDoc) (today : Nat)
    (tbl : List AttendanceDoc) : List AttendanceDoc :=
  (remote.filter (fun d => d.date == today)).foldl upsertAttendanceRow tbl

/-- The per-document merge step of `_sync_breaks_from_firestore`
(`hybrid_db.py` lines 291-371; `_sync_nurse_visits_from_firestore` lines
372-440 and `_sync_water_visits_from_firestore` lines 441-509 are verbatim
the same on `visit_start` / `visit_end`): find the first local row with the
remote document's `(student_uid, break_start)`; if found and the local
`break_end` is null while the remote one is set, adopt the remote end and
duration; in every other found case leave the row as it is; `none` when no
local counterpart exists. -/
def mergeBreakRow (remote : BreakDoc) : List BreakDoc → Option (List BreakDoc)
  | [] => none
  | b :: rest =>
    if b.student_uid == remote.student_uid && b.break_start == remote.break_start then
      if b.break_end.isNone && remote.break_end.isSome then
        some ({ b with break_end := remote.break_end,
                       duration_minutes := remote.duration_minutes } :: rest)
      else some (b :: rest)
    else (mergeBreakRow remote rest).map (b :: ·)

/-- One remote document of `_sync_breaks_from_firestore`'s loop: documents
whose start does not fall on today's date are skipped; otherwise merge with
the local counterpart, or insert when none exists. -/
def syncBreakFromFirestore (today : Nat) (tbl : List BreakDoc) (remote : BreakDoc) :
    List BreakDoc :=
  if remote.break_start / 86400 == today then
    match mergeBreakRow remote tbl with
    | some tbl2 => tbl2
    | none => tbl ++ [remote]
  else tbl

/-- Embeds `_sync_breaks_from_firestore` over the whole remote collection. -/
def sync_breaks_from_firestore (remote : List BreakDoc) (today : Nat)
    (tbl : List BreakDoc) : List BreakDoc :=
  remote.foldl (syncBreakFromFirestore today) tbl

/-! ## Offline → online transition (`src/online_first_db.py` lines 190-237,
290-373, 425-436) -/

/-- The local SQLite store of `OnlineFirstDatabase` (students kept as a
warm cache, plus the three buffered activity tables the class maintains:
`attendance`, `bathroom_breaks`, `nurse_visits`). -/
structure LocalDB where
  students : List StudentDoc
  attendance : List AttendanceDoc
  bathroom_breaks : List BreakDoc
  nurse_visits : List BreakDoc
  deriving Repr

/-- The remote Firestore collections addressed by document id during the
offline-data push (`document(doc_id).set(data)`). -/
structure FirebaseStore where
  attendance : List (String × AttendanceDoc)
  bathroom_breaks : List (String × BreakDoc)
  nurse_visits : List (String × BreakDoc)
  deriving Repr

/-- Embeds `document(docId).set(d)`: replace the document with that id, or create
it (document ids are unique in a Firestore collection). -/
def setDoc {α : Type} : List (String × α) → String → α → List (String × α)
  | [], docId, d => [(docId, d)]
  | e :: rest, docId, d =>
    if e.1 == docId then (docId, d) :: rest else e :: setDoc rest docId d

/-- The mode controller's state: `mode`, the lazily initialized remote
handle, and the local store. -/
structure OFState where
  mode : String
  firebase_db : Option FirebaseStore
  local_db : Option LocalDB
  deriving Repr

/-- Outcome of `run_with_timeout(init_firebase, 10)`: the connection, a
`TimeoutError`, or an initialization exception. -/
inductive InitOutcome where
  | success (fdb : FirebaseStore)
  | timeout
  | failure (msg : String)

/-- The bound passed to `run_with_timeout` for remote initialization in
`_transition_to_online` (`online_first_db.py` line 201). -/
def TRANSITION_INIT_TIMEOUT_SECONDS : Nat := 10

/-- The `JOIN students s ON x.student_uid = s.id OR x.student_uid =
s.student_id` of `_sync_local_to_firebase`: the first matching student (a
row with no matching student is dropped by the inner join). -/
def joinStudent (students : List StudentDoc) (uid : String) : Option StudentDoc :=
  students.find? (fun st => st.docId == uid || st.student_id == uid)

/-- Attendance document id used by the push: the student uid and the date
joined by an underscore. -/
def attDocId (r : AttendanceDoc) : String :=
  r.student_uid ++ "_" ++ toString r.date

/-- Activity document id used by the push: the student uid and the start
instant joined by an underscore. -/
def breakDocId (r : BreakDoc) : String :=
  r.student_uid ++ "_" ++ toString r.break_start

/-- Embeds `_sync_local_to_firebase` (`online_first_db.py` lines 290-373): for
each buffered row whose student resolves through the join, upsert a remote
document under its composite id (attendance, then bathroom breaks, then
nurse visits). -/
def sync_local_to_firebase (ldb : LocalDB) (fdb : FirebaseStore) : FirebaseStore :=
  let joined {α : Type} (uid : α → String) (rows : List α) : List α :=
    rows.filter (fun r => (joinStudent ldb.students (uid r)).isSome)
  let att := (joined (fun r => r.student_uid) ldb.attendance).foldl
    (fun col r => setDoc col (attDocId r) r) fdb.attendance
  let brk := (joined (fun r => r.student_uid) ldb.bathroom_breaks).foldl
    (fun col r => setDoc col (breakDocId r) r) fdb.bathroom_breaks
  let nrs := (joined (fun r => r.student_uid) ldb.nurse_visits).foldl
    (fun col r => setDoc col (breakDocId r) r) fdb.nurse_visits
  { fdb with attendance := att, bathroom_breaks := brk, nurse_visits := nrs }

/-- Embeds `_clear_local_database` (`online_first_db.py` lines 425-436): delete
all rows of `attendance`, `bathroom_breaks` and `nurse_visits`; students
are retained. -/
def clear_local_database (ldb : LocalDB) : LocalDB :=
  { ldb with attendance := [], bathroom_breaks := [], nurse_visits := [] }

/-- The body of `_transition_to_online` after remote initialization
(`online_first_db.py` lines 211-237): set `mode = "online"`; if a local
store exists and holds any buffered attendance / break / nurse rows, push
them and clear the local tables; `pushErr` is the exception (if any) raised
inside that `try` block — on an exception the push/clear is abandoned and
`mode` falls back to `"offline"` with the local data intact. -/
def transitionOnlineBody (s : OFState) (fdb : FirebaseStore)
    (pushErr : Option String) : OFState :=
  let s2 := { s with mode := "online" }
  match s.local_db with
  | none => s2
  | some ldb =>
    if ldb.attendance.length > 0 || ldb.bathroom_breaks.length > 0 ||
        ldb.nurse_visits.length > 0 then
      match pushErr with
      | some _ => { s2 with mode := "offline" }
      | none =>
        { s2 with firebase_db := some (sync_local_to_firebase ldb fdb),
                  local_db := some (clear_local_database ldb) }
    else s2

/-- Embeds `_transition_to_online` (`online_first_db.py` lines 190-237): when no
remote handle exists yet, attempt initialization bounded by
`run_with_timeout(·, 10)`; a timeout or exception leaves `mode =
"offline"` and everything else untouched; otherwise run the body above. -/
def transition_to_online (s : OFState) (init : InitOutcome)
    (pushErr : Option String) : OFState :=
  match s.firebase_db with
  | none =>
    match init with
    | .timeout => { s with mode := "offline" }
    | .failure _ => { s with mode := "offline" }
    | .success fdb => transitionOnlineBody { s with firebase_db := some fdb } fdb pushErr
  | some fdb => transitionOnlineBody s fdb pushErr

/-- Document lookup by id in a remote collection. -/
def lookupDoc {α : Type} : List (String × α) → String → Option α
  | [], _ => none
  | e :: rest, docId => if e.1 == docId then some e.2 else lookupDoc rest docId

/-- The GUI `SCHEDULE` constant of `src/nfc_reader_gui.py` (lines 43-53),
with times as seconds since midnight. -/
def SCHEDULE : List SchedPeriod :=
  [ ⟨"Period 1", 7*3600 + 25*60, 8*3600 + 8*60⟩,
    ⟨"Period 2", 8*3600 + 12*60, 9*3600 + 1*60⟩,
    ⟨"Period 3", 9*3600 + 5*60, 9*3600 + 48*60⟩,
    ⟨"Period 4", 9*3600 + 52*60, 10*3600 + 35*60⟩,
    ⟨"Period 5", 10*3600 + 39*60, 11*3600 + 22*60⟩,
    ⟨"Period 6", 11*3600 + 26*60, 12*3600 + 9*60⟩,
    ⟨"Period 7", 12*3600 + 13*60, 12*3600 + 56*60⟩,
    ⟨"Period 8", 13*3600, 13*3600 + 43*60⟩,
    ⟨"Period 9", 13*3600 + 47*60, 14*3600 + 30*60⟩ ]

/-! # Theorems -/

/-- C2: the boundary sweep never fires.  Whatever the period table, the
current instant and the store contents, `_auto_end_breaks_and_visits_at_period_end`
returns the store unchanged: `get_period_for_time` only resolves a period
whose (closed) interval still contains `now`'s time of day, which forces
`now ≤ period_end_dt`, the sweep's early-return condition — and past the
period's end no period resolves at all.  The spec requires every still-open
activity record whose start preceded the ended period's end to be closed at
the period end; the code can never do so. -/
theorem auto_end_sweep_never_closes_anything (s : FirebaseState) (now : Nat) :
    auto_end_breaks_and_visits_at_period_end s now = s := by
  unfold auto_end_breaks_and_visits_at_period_end
  cases h : get_period_for_time s.periods now with
  | none => rfl
  | some pe =>
    obtain ⟨lbl, endT⟩ := pe
    have hle : now ≤ (now / 86400) * 86400 + endT := by
      unfold get_period_for_time at h
      simp only [Option.map_eq_some'] at h
      obtain ⟨p, hfind, hf⟩ := h
      have hpred := List.find?_some hfind
      simp only [Bool.and_eq_true, decide_eq_true_eq] at hpred
      have h3 : p.endTime = endT := congrArg Prod.snd hf
      have h2 : now % 86400 ≤ endT := h3 ▸ hpred.2
      omega
    simp [hle]

/-- C4: the retry policy of `_retry_with_backoff` at its fixed attempt
count (3, the source default used by every caller).  (a) A non-transient
first error is re-raised after exactly one invocation with no wait; (b) a
success returns at once; (c)/(d) N transient (429 / quota) failures with
N < 3 are each followed by a wait of `min(2 ^ attempt + jitter, 64)` and
the call eventually succeeds; (e) three transient failures exhaust the
attempts and the final error is surfaced to the caller; (f) a non-transient
error after a transient one is also re-raised without further retry. -/
theorem retry_with_backoff_policy (func : Nat → CallOutcome) (jitter : Nat → ℚ)
    (m0 m1 m2 : String) (v : Nat) :
    (func 0 = .err m0 → isQuotaError m0 = false →
      retry_with_backoff func jitter 3 = ⟨.error m0, 1, []⟩)
  ∧ (func 0 = .ok v → retry_with_backoff func jitter 3 = ⟨.ok (some v), 1, []⟩)
  ∧ (func 0 = .err m0 → isQuotaError m0 = true → func 1 = .ok v →
      retry_with_backoff func jitter 3 =
        ⟨.ok (some v), 2, [min ((2 : ℚ) ^ 0 + jitter 0) 64]⟩)
  ∧ (func 0 = .err m0 → isQuotaError m0 = true →
     func 1 = .err m1 → isQuotaError m1 = true → func 2 = .ok v →
      retry_with_backoff func jitter 3 =
        ⟨.ok (some v), 3,
         [min ((2 : ℚ) ^ 0 + jitter 0) 64, min ((2 : ℚ) ^ 1 + jitter 1) 64]⟩)
  ∧ (func 0 = .err m0 → isQuotaError m0 = true →
     func 1 = .err m1 → isQuotaError m1 = true →
     func 2 = .err m2 → isQuotaError m2 = true →
      retry_with_backoff func jitter 3 =
        ⟨.error m2, 3,
         [min ((2 : ℚ) ^ 0 + jitter 0) 64, min ((2 : ℚ) ^ 1 + jitter 1) 64]⟩)
  ∧ (func 0 = .err m0 → isQuotaError m0 = true →
     func 1 = .err m1 → isQuotaError m1 = false →
      retry_with_backoff func jitter 3 =
        ⟨.error m1, 2, [min ((2 : ℚ) ^ 0 + jitter 0) 64]⟩) := by
  refine ⟨fun h0 hq0 => ?_, fun h0 => ?_, fun h0 hq0 h1 => ?_,
    fun h0 hq0 h1 hq1 h2 => ?_, fun h0 hq0 h1 hq1 h2 hq2 => ?_,
    fun h0 hq0 h1 hq1 => ?_⟩ <;>
    simp [retry_with_backoff, retryGo, *]

/-- Witness for C4: a run whose first two invocations fail with quota
errors and whose third succeeds retries twice with the computed backoff
waits and returns the value. -/
theorem retry_with_backoff_policy_witness :
    retry_with_backoff
      (fun i => if i < 2 then .err "429 Quota exceeded for requests" else .ok 7)
      (fun _ => (1 : ℚ) / 2) 3 =
      ⟨.ok (some 7), 3, [min ((2 : ℚ) ^ 0 + (1 : ℚ) / 2) 64, min ((2 : ℚ) ^ 1 + (1 : ℚ) / 2) 64]⟩ :=
  (retry_with_backoff_policy
      (fun i => if i < 2 then .err "429 Quota exceeded for requests" else .ok 7)
      (fun _ => (1 : ℚ) / 2)
      "429 Quota exceeded for requests" "429 Quota exceeded for requests" "" 7).2.2.2.1
    (by decide) (by decide) (by decide) (by decide) (by decide)

/-- When every pending set is empty no push runs, so the sequence returns
normally. -/
lemma runPushes_of_allEmpty (pc : PendingChanges) (env : PushResults)
    (h : pc.allEmpty = true) : runPushes pc env = .ok () := by
  unfold PendingChanges.allEmpty at h
  simp only [Bool.and_eq_true] at h
  obtain ⟨⟨⟨⟨h1, h2⟩, h3⟩, h4⟩, h5⟩ := h
  simp only [runPushes, h1, h2, h3, h4, h5, Bool.not_true, Bool.false_eq_true,
    if_false, ite_false]
  rfl

/-- C3: at-least-once delivery of the dirty set.  If every per-table push
of a `sync_to_firestore` cycle returns normally, all pending sets are
cleared; if the push sequence raises, the exception is caught and the
pending sets are exactly as before the cycle, so the changed records are
retried on a later cycle. -/
theorem sync_to_firestore_dirty_set (pc : PendingChanges) (env : PushResults)
    (e : String) :
    (env.students = .ok () → env.attendance = .ok () →
     env.bathroom_breaks = .ok () → env.nurse_visits = .ok () →
     env.water_visits = .ok () →
      sync_to_firestore pc env = ⟨[], [], [], [], []⟩)
  ∧ (runPushes pc env = .error e → sync_to_firestore pc env = pc) := by
  constructor
  · intro h1 h2 h3 h4 h5
    unfold sync_to_firestore
    by_cases hemp : pc.allEmpty = true
    · rw [if_pos hemp]
      unfold PendingChanges.allEmpty at hemp
      simp only [Bool.and_eq_true, List.isEmpty_iff] at hemp
      obtain ⟨⟨⟨⟨e1, e2⟩, e3⟩, e4⟩, e5⟩ := hemp
      cases pc
      simp_all
    · rw [if_neg hemp]
      have hok : runPushes pc env = .ok () := by
        simp only [runPushes, h1, h2, h3, h4, h5]
        split <;> split <;> split <;> split <;> split <;> rfl
      rw [hok]
  · intro herr
    unfold sync_to_firestore
    by_cases hemp : pc.allEmpty = true
    · rw [if_pos hemp]
    · rw [if_neg hemp, herr]

/-- Witness for C3: a cycle with one dirty attendance key whose push
raises keeps the dirty set intact. -/
theorem sync_to_firestore_dirty_set_witness :
    sync_to_firestore ⟨[], ["modified"], [], [], []⟩
      ⟨.ok (), .error "503 backend unavailable", .ok (), .ok (), .ok ()⟩ =
      ⟨[], ["modified"], [], [], []⟩ :=
  (sync_to_firestore_dirty_set ⟨[], ["modified"], [], [], []⟩
      ⟨.ok (), .error "503 backend unavailable", .ok (), .ok (), .ok ()⟩
      "503 backend unavailable").2 (by rfl)

/-- The function `check_in` touches only the `attendance` collection. -/
lemma check_in_bathroom_breaks (s : FirebaseState) (nfc_uid student_id : Option String)
    (now : Nat) :
    ((check_in s nfc_uid student_id now).2).bathroom_breaks = s.bathroom_breaks := by
  unfold check_in
  split
  · rfl
  · dsimp only
    repeat' split
    all_goals rfl

/-- Characterization of `endFirstOpenBreak` on success: the table splits at
the student's first open break, which is closed at `now` with the floored
minute duration; everything else is untouched. -/
lemma endFirstOpenBreak_eq_some (identifier : String) (now : Nat) :
    ∀ tbl tbl', endFirstOpenBreak identifier now tbl = some tbl' →
      ∃ pre b post, tbl = pre ++ b :: post ∧
        b.student_uid = identifier ∧ b.break_end = none ∧
        (∀ x ∈ pre, ¬(x.student_uid = identifier ∧ x.break_end = none)) ∧
        tbl' = pre ++ { b with break_end := some now
                               duration_minutes := some ((now - b.break_start) / 60) } :: post := by
  intro tbl
  induction tbl with
  | nil => intro tbl' h; simp [endFirstOpenBreak] at h
  | cons b rest ih =>
    intro tbl' h
    unfold endFirstOpenBreak at h
    by_cases hb : (b.student_uid == identifier && b.break_end.isNone) = true
    · rw [if_pos hb] at h
      simp only [Bool.and_eq_true, beq_iff_eq, Option.isNone_iff_eq_none] at hb
      exact ⟨[], b, rest, by simp, hb.1, hb.2, by simp, by simpa using h.symm⟩
    · rw [if_neg hb] at h
      simp only [Option.map_eq_some'] at h
      obtain ⟨tbl0, h0, rfl⟩ := h
      obtain ⟨pre, c, post, hsplit, hc1, hc2, hpre, hres⟩ := ih tbl0 h0
      refine ⟨b :: pre, c, post, by simp [hsplit], hc1, hc2, ?_, by simp [hres]⟩
      intro x hx
      rcases List.mem_cons.mp hx with rfl | hx2
      · intro ⟨hxu, hxe⟩
        exact hb (by simp [hxu, hxe])
      · exact hpre x hx2

/-- The helper `endFirstOpenBreak` succeeds exactly when the student has an open
break. -/
lemma endFirstOpenBreak_isSome (identifier : String) (now : Nat) :
    ∀ tbl : List BreakDoc,
      (endFirstOpenBreak identifier now tbl).isSome =
        tbl.any (fun b => b.student_uid == identifier && b.break_end.isNone) := by
  intro tbl
  induction tbl with
  | nil => simp [endFirstOpenBreak]
  | cons b rest ih =>
    unfold endFirstOpenBreak
    by_cases hb : (b.student_uid == identifier && b.break_end.isNone) = true
    · simp [hb]
    · simp only [Bool.not_eq_true] at hb
      simp [hb, ih]

/-- Closing one open break lowers the number of open breaks by one. -/
lemma endFirstOpenBreak_open_count (identifier : String) (now : Nat)
    (tbl tbl' : List BreakDoc) (h : endFirstOpenBreak identifier now tbl = some tbl') :
    (tbl'.filter (fun b => b.break_end.isNone)).length + 1 =
      (tbl.filter (fun b => b.break_end.isNone)).length := by
  obtain ⟨pre, b, post, rfl, _, hbe, _, rfl⟩ := endFirstOpenBreak_eq_some identifier now _ _ h
  simp [List.filter_append, hbe]
  omega

/-- The possible effects of `start_bathroom_break_core` on the
`bathroom_breaks` collection: left unchanged (rejection), the student's
own open break closed (the toggle path), or — only when the student has no
open break and no other student has one — one new open break appended. -/
lemma start_bathroom_break_core_cases (s1 : FirebaseState) (identifier : String)
    (now : Nat) :
    ((start_bathroom_break_core s1 identifier now).2).bathroom_breaks
        = s1.bathroom_breaks
  ∨ (∃ tbl', endFirstOpenBreak identifier now s1.bathroom_breaks = some tbl' ∧
      ((start_bathroom_break_core s1 identifier now).2).bathroom_breaks = tbl')
  ∨ (is_on_break s1 identifier = false ∧
      s1.bathroom_breaks.find?
          (fun b => b.break_end.isNone && b.student_uid != identifier) = none ∧
      ((start_bathroom_break_core s1 identifier now).2).bathroom_breaks =
        s1.bathroom_breaks ++ [⟨identifier, now, none, none⟩]) := by
  unfold start_bathroom_break_core
  by_cases h1 : is_on_break s1 identifier = true
  · rw [if_pos h1]
    have hsome : (endFirstOpenBreak identifier now s1.bathroom_breaks).isSome := by
      rw [endFirstOpenBreak_isSome]
      unfold is_on_break at h1
      exact h1
    obtain ⟨tbl', htbl'⟩ := Option.isSome_iff_exists.mp hsome
    right; left
    refine ⟨tbl', htbl', ?_⟩
    unfold end_bathroom_break
    rw [htbl']
  · rw [if_neg h1]
    cases hfind : s1.bathroom_breaks.find?
        (fun b => b.break_end.isNone && b.student_uid != identifier) with
    | some other => left; rfl
    | none =>
      right; right
      exact ⟨by simpa using h1, rfl, rfl⟩

/-- The operation `start_bathroom_break` runs the core on a state whose breaks are those
of `s` (the auto-check-in only touches attendance), or fails leaving the
breaks unchanged. -/
lemma start_bathroom_break_cases (s : FirebaseState) (identifier : String) (now : Nat) :
    ((start_bathroom_break s identifier now).2).bathroom_breaks = s.bathroom_breaks
  ∨ (∃ s1 : FirebaseState, s1.bathroom_breaks = s.bathroom_breaks ∧
      start_bathroom_break s identifier now = start_bathroom_break_core s1 identifier now) := by
  unfold start_bathroom_break
  rcases hchk : is_checked_in s identifier (now / 86400) with _ | _
  · simp only [Bool.false_eq_true, if_false]
    rcases htest : identifier.startsWith "TEST" || decide (identifier.length > 10) with _ | _
    · simp only [Bool.false_eq_true, if_false]
      rcases hci : check_in s none (some identifier) now with ⟨⟨flag, msg⟩, s1⟩
      have hbrk : s1.bathroom_breaks = s.bathroom_breaks := by
        have := check_in_bathroom_breaks s none (some identifier) now
        rw [hci] at this
        exact this
      cases flag with
      | false => left; exact hbrk
      | true => right; exact ⟨s1, hbrk, rfl⟩
    · simp only [if_true]
      rcases hci : check_in s (some identifier) none now with ⟨⟨flag, msg⟩, s1⟩
      have hbrk : s1.bathroom_breaks = s.bathroom_breaks := by
        have := check_in_bathroom_breaks s (some identifier) none now
        rw [hci] at this
        exact this
      cases flag with
      | false => left; exact hbrk
      | true => right; exact ⟨s1, hbrk, rfl⟩
  · simp only [if_true]
    right; exact ⟨s, rfl, rfl⟩

/-- Closing the first open break of a student preserves the duration
postcondition on every record of the table, provided the closing instant is
not before the start of any open record (clock monotonicity). -/
lemma breakInv_endFirstOpenBreak (identifier : String) (now : Nat)
    (tbl tbl' : List BreakDoc) (h : endFirstOpenBreak identifier now tbl = some tbl')
    (hInv : ∀ b ∈ tbl, BreakInv b)
    (hClock : ∀ b ∈ tbl, b.break_end = none → b.break_start ≤ now) :
    ∀ b ∈ tbl', BreakInv b := by
  obtain ⟨pre, b, post, rfl, hbu, hbe, hpre, rfl⟩ :=
    endFirstOpenBreak_eq_some identifier now _ _ h
  intro x hx
  rcases List.mem_append.mp hx with hx1 | hx2
  · exact hInv x (List.mem_append.mpr (Or.inl hx1))
  · rcases List.mem_cons.mp hx2 with rfl | hx3
    · constructor
      · intro habs; simp at habs
      · intro e he
        simp only [Option.some.injEq] at he
        subst he
        refine ⟨hClock b (by simp) hbe, rfl⟩
    · exact hInv x (by simp [hx3])

/-- C9: the duration postcondition.  Starting from a store whose break
records all satisfy it (duration null iff the record is open; on a closed
record, duration = floor of the elapsed seconds / 60) and a current instant
no earlier than any open record's start, both `end_bathroom_break` and
`start_bathroom_break` leave every break record satisfying it: a newly
created record is open with null duration, and a record closed at `now`
carries `duration_minutes = (now - start) / 60` (whole-minute floor). -/
theorem break_duration_postcondition (s : FirebaseState) (identifier : String)
    (now : Nat)
    (hInv : ∀ b ∈ s.bathroom_breaks, BreakInv b)
    (hClock : ∀ b ∈ s.bathroom_breaks, b.break_end = none → b.break_start ≤ now) :
    (∀ b ∈ ((end_bathroom_break s identifier now).2).bathroom_breaks, BreakInv b)
  ∧ (∀ b ∈ ((start_bathroom_break s identifier now).2).bathroom_breaks, BreakInv b) := by
  constructor
  · unfold end_bathroom_break
    cases h : endFirstOpenBreak identifier now s.bathroom_breaks with
    | none => exact hInv
    | some tbl' => exact breakInv_endFirstOpenBreak identifier now _ tbl' h hInv hClock
  · rcases start_bathroom_break_cases s identifier now with heq | ⟨s1, hbrk, heq⟩
    · rw [heq]; exact hInv
    · rw [heq]
      rcases start_bathroom_break_core_cases s1 identifier now with
        heq2 | ⟨tbl', h', heq2⟩ | ⟨_, _, heq2⟩
      · rw [heq2, hbrk]; exact hInv
      · rw [heq2]
        rw [hbrk] at h'
        exact breakInv_endFirstOpenBreak identifier now _ tbl' h' hInv hClock
      · rw [heq2, hbrk]
        intro x hx
        rcases List.mem_append.mp hx with hx1 | hx2
        · exact hInv x hx1
        · rcases List.mem_cons.mp hx2 with rfl | habs
          · exact ⟨fun _ => rfl, fun e he => by simp at he⟩
          · simp at habs

/-- Witness for C9: ending the sole open break of student `S1` at instant
400 (started at 95) yields a table whose records all satisfy the duration
postcondition — the closed record carries `(400 - 95) / 60 = 5` minutes. -/
theorem break_duration_postcondition_witness :
    (∀ b ∈ ((end_bathroom_break
        ⟨[], [], [⟨"S1", 95, none, none⟩], [], [], []⟩ "S1" 400).2).bathroom_breaks,
      BreakInv b) ∧
    ((end_bathroom_break
        ⟨[], [], [⟨"S1", 95, none, none⟩], [], [], []⟩ "S1" 400).2).bathroom_breaks =
      [⟨"S1", 95, some 400, some 5⟩] :=
  ⟨(break_duration_postcondition ⟨[], [], [⟨"S1", 95, none, none⟩], [], [], []⟩ "S1" 400
      (by intro b hb; rcases List.mem_singleton.mp hb with rfl
          exact ⟨fun _ => rfl, fun e he => by simp at he⟩)
      (by intro b hb; rcases List.mem_singleton.mp hb with rfl
          intro _; decide)).1,
    by rfl⟩

/-- C10: toggle semantics of `start_bathroom_break` for a student who
already has an open break (expressed by `endFirstOpenBreak` succeeding,
which holds exactly when the student has an open break record).  The call
does not report a hall-pass conflict and does not create a record: it
returns success with the message "Previous break ended, ready for new
activities", and the store's break table becomes the one in which the
student's first open break is closed at `now` with its computed duration —
same number of records as before, all others untouched. -/
theorem start_break_toggles_open_break (s : FirebaseState) (identifier : String)
    (now : Nat) (tbl' : List BreakDoc)
    (hchk : is_checked_in s identifier (now / 86400) = true)
    (h' : endFirstOpenBreak identifier now s.bathroom_breaks = some tbl') :
    start_bathroom_break s identifier now =
      ((true, "Previous break ended, ready for new activities"),
       { s with bathroom_breaks := tbl' })
  ∧ tbl'.length = s.bathroom_breaks.length
  ∧ ∃ pre b post, s.bathroom_breaks = pre ++ b :: post ∧
      b.student_uid = identifier ∧ b.break_end = none ∧
      (∀ x ∈ pre, ¬(x.student_uid = identifier ∧ x.break_end = none)) ∧
      tbl' = pre ++ { b with break_end := some now
                             duration_minutes := some ((now - b.break_start) / 60) }
        :: post := by
  have hopen : is_on_break s identifier = true := by
    have hs := endFirstOpenBreak_isSome identifier now s.bathroom_breaks
    rw [h'] at hs
    unfold is_on_break
    exact hs.symm
  have hstep : start_bathroom_break s identifier now =
      start_bathroom_break_core s identifier now := by
    unfold start_bathroom_break
    rw [if_pos hchk]
  obtain ⟨pre, b, post, hsp, hbu, hbe, hpre, hres⟩ :=
    endFirstOpenBreak_eq_some identifier now _ _ h'
  refine ⟨?_, by rw [hres, hsp]; simp, pre, b, post, hsp, hbu, hbe, hpre, hres⟩
  rw [hstep]
  unfold start_bathroom_break_core
  rw [if_pos hopen]
  unfold end_bathroom_break
  rw [h']

/-- Witness for C10: student `S1`, already checked in on day 0 and with an
open break started at 100, scans again at 160: the break is closed with
duration 1 minute, no second record appears, and the call succeeds with the
toggle message. -/
theorem start_break_toggles_open_break_witness :
    start_bathroom_break
        ⟨[⟨"S1", "", "S1", "Ann"⟩], [⟨"S1", 0, 50, none, none⟩],
         [⟨"S1", 100, none, none⟩], [], [], []⟩ "S1" 160 =
      ((true, "Previous break ended, ready for new activities"),
       ⟨[⟨"S1", "", "S1", "Ann"⟩], [⟨"S1", 0, 50, none, none⟩],
        [⟨"S1", 100, some 160, some 1⟩], [], [], []⟩) :=
  (start_break_toggles_open_break
      ⟨[⟨"S1", "", "S1", "Ann"⟩], [⟨"S1", 0, 50, none, none⟩],
       [⟨"S1", 100, none, none⟩], [], [], []⟩ "S1" 160
      [⟨"S1", 100, some 160, some 1⟩] (by rfl) (by rfl)).1

/-- C6: duplicate check-in rejection.  For a student whose UID resolves and
who has no attendance record for today, the first `check_in` succeeds and
appends exactly one new open attendance record for `(student, today)`; a
second `check_in` on the same date (any later instant of the same day)
fails with "Already checked in today" and leaves the store unchanged — no
new record is created. -/
theorem duplicate_check_in_rejected (s : FirebaseState) (u : String) (now now2 : Nat)
    (hu : u.isEmpty = false)
    (hstud : (s.students.find? (fun d => d.docId == u)).isSome = true)
    (hnot : is_checked_in s u (now / 86400) = false)
    (hday : now2 / 86400 = now / 86400) :
    check_in s (some u) none now =
      ((true, "Checked in successfully"),
       { s with attendance := s.attendance ++
          [⟨u, now / 86400, now, none,
            (get_period_for_time s.periods now).map
              (fun pe => (now / 86400) * 86400 + pe.2)⟩] })
  ∧ check_in
      { s with attendance := s.attendance ++
          [⟨u, now / 86400, now, none,
            (get_period_for_time s.periods now).map
              (fun pe => (now / 86400) * 86400 + pe.2)⟩] }
      (some u) none now2 =
      ((false, "Already checked in today"),
       { s with attendance := s.attendance ++
          [⟨u, now / 86400, now, none,
            (get_period_for_time s.periods now).map
              (fun pe => (now / 86400) * 86400 + pe.2)⟩] }) := by
  have htr : strTruthy (some u) = true := by simp [strTruthy, hu]
  have hid : get_identifier (some u) none = some u := by simp [get_identifier, htr]
  obtain ⟨d, hd⟩ := Option.isSome_iff_exists.mp hstud
  constructor
  · unfold check_in
    rw [hid]
    dsimp only
    rw [if_pos htr]
    dsimp only [Option.getD_some]
    rw [show get_student_by_uid s u = some (d.student_id, d.name) by
      unfold get_student_by_uid; rw [hd]; rfl]
    simp only [Option.isNone_some, Bool.false_eq_true, if_false]
    rw [if_neg (by rw [hnot]; exact Bool.false_ne_true)]
  · unfold check_in
    rw [hid]
    dsimp only
    rw [if_pos htr]
    dsimp only [Option.getD_some]
    rw [show get_student_by_uid
        { s with attendance := s.attendance ++
            [⟨u, now / 86400, now, none,
              (get_period_for_time s.periods now).map
                (fun pe => (now / 86400) * 86400 + pe.2)⟩] } u
        = some (d.student_id, d.name) by
      unfold get_student_by_uid; rw [hd]; rfl]
    simp only [Option.isNone_some, Bool.false_eq_true, if_false]
    rw [if_pos (by unfold is_checked_in; simp [hday])]

/-- Witness for C6: student with UID `UID1` and empty attendance: the first
check-in on day 0 appends a record; the second at a later instant of day 0
fails with "Already checked in today" and changes nothing. -/
theorem duplicate_check_in_rejected_witness :
    check_in
        ⟨[⟨"UID1", "", "1001", "Ann"⟩], [⟨"UID1", 0, 100, none, none⟩], [], [], [], []⟩
        (some "UID1") none 200 =
      ((false, "Already checked in today"),
       ⟨[⟨"UID1", "", "1001", "Ann"⟩], [⟨"UID1", 0, 100, none, none⟩], [], [], [], []⟩) :=
  (duplicate_check_in_rejected
      ⟨[⟨"UID1", "", "1001", "Ann"⟩], [], [], [], [], []⟩ "UID1" 100 200
      (by rfl) (by rfl) (by rfl) (by rfl)).2

/-- A list containing two distinct elements has length at least two. -/
lemma two_le_length_of_two_mem {α : Type} (l : List α) (a b : α)
    (ha : a ∈ l) (hb : b ∈ l) (hne : a ≠ b) : 2 ≤ l.length := by
  obtain ⟨l1, l2, rfl⟩ := List.append_of_mem ha
  have hb2 : b ∈ l1 ∨ b ∈ l2 := by
    rcases List.mem_append.mp hb with h | h
    · exact Or.inl h
    · rcases List.mem_cons.mp h with rfl | h2
      · exact absurd rfl hne
      · exact Or.inr h2
  rcases hb2 with h | h
  · have := List.length_pos_of_mem h
    simp only [List.length_append, List.length_cons]
    omega
  · have := List.length_pos_of_mem h
    simp only [List.length_append, List.length_cons]
    omega

/-- When the caller has no open break and no other student has one, there
is no open break at all. -/
lemma no_open_break_of_guards (breaks : List BreakDoc) (identifier : String)
    (h1 : breaks.any (fun b => b.student_uid == identifier && b.break_end.isNone) = false)
    (h2 : breaks.find? (fun b => b.break_end.isNone && b.student_uid != identifier) = none) :
    breaks.filter (fun b => b.break_end.isNone) = [] := by
  rw [List.filter_eq_nil_iff]
  intro b hb hopen
  have h1' := List.any_eq_false.mp h1 b hb
  have h2' := List.find?_eq_none.mp h2 b hb
  simp only [Bool.and_eq_true, beq_iff_eq, not_and, Bool.not_eq_true] at h1' h2'
  by_cases hu : b.student_uid = identifier
  · rw [hopen] at h1'
    simp [hu] at h1'
  · have := h2' (by simp [hopen])
    simp only [bne_eq_false_iff_eq] at this
    exact hu this

/-- C5: the single-hall-pass invariant.  (a) If at most one bathroom break
is open across all students, this is still true after any
`start_bathroom_break` call (the only path that appends a record requires
that no break at all be open).  (b) If the invariant holds, the caller is
checked in, and some *other* student has an open break, the call is
rejected: it returns `false` with the "Another student (...) is already on
a break" message and leaves the store completely unchanged. -/
theorem single_hall_pass_invariant (s : FirebaseState) (identifier : String) (now : Nat)
    (hcount : openBreakCount s ≤ 1) :
    openBreakCount (start_bathroom_break s identifier now).2 ≤ 1
  ∧ (is_checked_in s identifier (now / 86400) = true →
     (∃ b ∈ s.bathroom_breaks, b.break_end = none ∧ b.student_uid ≠ identifier) →
      (start_bathroom_break s identifier now).1.1 = false ∧
      (start_bathroom_break s identifier now).2 = s ∧
      ∃ nm, (start_bathroom_break s identifier now).1.2 =
        "Another student (" ++ nm ++ ") is already on a break") := by
  constructor
  · rcases start_bathroom_break_cases s identifier now with heq | ⟨s1, hbrk, heq⟩
    · unfold openBreakCount
      rw [heq]
      exact hcount
    · unfold openBreakCount
      rw [heq]
      rcases start_bathroom_break_core_cases s1 identifier now with
        heq2 | ⟨tbl', h', heq2⟩ | ⟨hg1, hg2, heq2⟩
      · rw [heq2, hbrk]; exact hcount
      · rw [heq2]
        have := endFirstOpenBreak_open_count identifier now _ _ h'
        rw [hbrk] at this
        unfold openBreakCount at hcount
        omega
      · rw [heq2]
        unfold is_on_break at hg1
        have hnil := no_open_break_of_guards s1.bathroom_breaks identifier hg1 hg2
        rw [List.filter_append, hnil]
        simp
  · intro hchk hother
    obtain ⟨bo, hbo, hboe, hbou⟩ := hother
    have hstep : start_bathroom_break s identifier now =
        start_bathroom_break_core s identifier now := by
      unfold start_bathroom_break
      rw [if_pos hchk]
    have hnoself : is_on_break s identifier = false := by
      by_contra habs
      simp only [Bool.not_eq_false] at habs
      unfold is_on_break at habs
      obtain ⟨bs, hbs, hbsp⟩ := List.any_eq_true.mp habs
      simp only [Bool.and_eq_true, beq_iff_eq, Option.isNone_iff_eq_none] at hbsp
      have hne : bs ≠ bo := by
        intro hcontra
        rw [hcontra] at hbsp
        exact hbou hbsp.1
      have h2le := two_le_length_of_two_mem
        (s.bathroom_breaks.filter (fun b => b.break_end.isNone)) bs bo
        (List.mem_filter.mpr ⟨hbs, by simp [hbsp.2]⟩)
        (List.mem_filter.mpr ⟨hbo, by simp [hboe]⟩) hne
      unfold openBreakCount at hcount
      omega
    have hfind : (s.bathroom_breaks.find?
        (fun b => b.break_end.isNone && b.student_uid != identifier)).isSome := by
      rw [List.find?_isSome]
      exact ⟨bo, hbo, by simp [hboe, hbou]⟩
    obtain ⟨other, hother'⟩ := Option.isSome_iff_exists.mp hfind
    rw [hstep]
    unfold start_bathroom_break_core
    rw [if_neg (by rw [hnoself]; exact Bool.false_ne_true), hother']
    exact ⟨rfl, rfl, get_student_name s other.student_uid, rfl⟩

/-- Witness for C5: with student `S2` holding the open break, `S1` (checked
in) is rejected with the conflict message and the store is unchanged. -/
theorem single_hall_pass_invariant_witness :
    (start_bathroom_break
        ⟨[⟨"S2", "", "1002", "Bo"⟩], [⟨"S1", 0, 50, none, none⟩],
         [⟨"S2", 90, none, none⟩], [], [], []⟩ "S1" 160).1.1 = false ∧
    (start_bathroom_break
        ⟨[⟨"S2", "", "1002", "Bo"⟩], [⟨"S1", 0, 50, none, none⟩],
         [⟨"S2", 90, none, none⟩], [], [], []⟩ "S1" 160).2 =
      ⟨[⟨"S2", "", "1002", "Bo"⟩], [⟨"S1", 0, 50, none, none⟩],
       [⟨"S2", 90, none, none⟩], [], [], []⟩ ∧
    ∃ nm, (start_bathroom_break
        ⟨[⟨"S2", "", "1002", "Bo"⟩], [⟨"S1", 0, 50, none, none⟩],
         [⟨"S2", 90, none, none⟩], [], [], []⟩ "S1" 160).1.2 =
      "Another student (" ++ nm ++ ") is already on a break" :=
  (single_hall_pass_invariant
      ⟨[⟨"S2", "", "1002", "Bo"⟩], [⟨"S1", 0, 50, none, none⟩],
       [⟨"S2", 90, none, none⟩], [], [], []⟩ "S1" 160 (by decide)).2
    (by rfl) ⟨⟨"S2", 90, none, none⟩, by decide, rfl, by decide⟩

/-- The merge `mergeBreakRow` on a table containing the remote document's key: the
first row with that key is updated exactly when it is open and the remote
copy is closed; otherwise the table is returned as it is. -/
lemma mergeBreakRow_found (remote b : BreakDoc) :
    ∀ (pre post : List BreakDoc),
      (∀ x ∈ pre, ¬(x.student_uid = remote.student_uid ∧
          x.break_start = remote.break_start)) →
      b.student_uid = remote.student_uid → b.break_start = remote.break_start →
      mergeBreakRow remote (pre ++ b :: post) =
        some (pre ++
          (if b.break_end.isNone && remote.break_end.isSome then
            { b with break_end := remote.break_end,
                     duration_minutes := remote.duration_minutes }
          else b) :: post) := by
  intro pre
  induction pre with
  | nil =>
    intro post _ hu hs
    have hkey : (b.student_uid == remote.student_uid &&
        b.break_start == remote.break_start) = true := by simp [hu, hs]
    simp only [List.nil_append]
    unfold mergeBreakRow
    rw [if_pos hkey]
    by_cases hcond : (b.break_end.isNone && remote.break_end.isSome) = true
    · rw [if_pos hcond, if_pos hcond]
    · rw [if_neg hcond, if_neg hcond]
  | cons a pre' ih =>
    intro post hpre hu hs
    have hna : ¬(a.student_uid == remote.student_uid &&
        a.break_start == remote.break_start) = true := by
      have := hpre a (by simp)
      simpa using this
    show mergeBreakRow remote (a :: (pre' ++ b :: post)) = _
    unfold mergeBreakRow
    rw [if_neg hna, ih post (fun x hx => hpre x (by simp [hx])) hu hs]
    rfl

/-- C1 (amended): the pull-phase non-regression merge holds for activity
records (bathroom breaks; the nurse/water code is verbatim identical): with
a local counterpart present, a closed local record is never reopened by an
open remote copy, an open local record adopts a closed remote copy's end
and duration, and the both-open / both-closed cases are no-ops.  For
*attendance* records, however, `_sync_attendance_from_firestore` executes
an unconditional `INSERT OR REPLACE`: the local row with the remote's
`(student, date)` key is overwritten with the remote field values whatever
its local `check_out` was. -/
theorem pull_merge_non_regression (remote b : BreakDoc) (pre post : List BreakDoc)
    (today : Nat) (d : AttendanceDoc) (tblA : List AttendanceDoc)
    (hpre : ∀ x ∈ pre, ¬(x.student_uid = remote.student_uid ∧
        x.break_start = remote.break_start))
    (hu : b.student_uid = remote.student_uid)
    (hs : b.break_start = remote.break_start) :
    (b.break_end.isSome → remote.break_end = none →
      syncBreakFromFirestore today (pre ++ b :: post) remote = pre ++ b :: post)
  ∧ (b.break_end = none → remote.break_end = none →
      syncBreakFromFirestore today (pre ++ b :: post) remote = pre ++ b :: post)
  ∧ (b.break_end.isSome → remote.break_end.isSome →
      syncBreakFromFirestore today (pre ++ b :: post) remote = pre ++ b :: post)
  ∧ (b.break_end = none → remote.break_end.isSome →
     remote.break_start / 86400 = today →
      syncBreakFromFirestore today (pre ++ b :: post) remote =
        pre ++ { b with break_end := remote.break_end,
                        duration_minutes := remote.duration_minutes } :: post)
  ∧ (tblA.any (fun r => r.student_uid == d.student_uid && r.date == d.date) = true →
     d.date = today →
      sync_attendance_from_firestore [d] today tblA =
        tblA.map (fun r =>
          if r.student_uid == d.student_uid && r.date == d.date then d else r)) := by
  have hmerge := mergeBreakRow_found remote b pre post hpre hu hs
  refine ⟨fun hbe hre => ?_, fun hbe hre => ?_, fun hbe hre => ?_,
    fun hbe hre hd => ?_, fun hany hd => ?_⟩
  · unfold syncBreakFromFirestore
    by_cases hdt : (remote.break_start / 86400 == today) = true
    · rw [if_pos hdt, hmerge]
      rw [if_neg (by simp [hre])]
    · rw [if_neg hdt]
  · unfold syncBreakFromFirestore
    by_cases hdt : (remote.break_start / 86400 == today) = true
    · rw [if_pos hdt, hmerge]
      rw [if_neg (by simp [hre])]
    · rw [if_neg hdt]
  · unfold syncBreakFromFirestore
    by_cases hdt : (remote.break_start / 86400 == today) = true
    · rw [if_pos hdt, hmerge]
      rw [if_neg (by simp [Option.isSome_iff_ne_none.mp hbe])]
    · rw [if_neg hdt]
  · unfold syncBreakFromFirestore
    rw [if_pos (by simp [hd]), hmerge]
    rw [if_pos (by simp [hbe, hre])]
  · unfold sync_attendance_from_firestore
    rw [show List.filter (fun r => r.date == today) [d] = [d] by simp [hd]]
    show upsertAttendanceRow tblA d = _
    unfold upsertAttendanceRow
    rw [if_pos hany]

/-- Witness for C1 (amended): an open local break whose remote copy is
closed at 160 adopts the remote end and its 1-minute duration. -/
theorem pull_merge_non_regression_witness :
    syncBreakFromFirestore 0 [⟨"S1", 100, none, none⟩] ⟨"S1", 100, some 160, some 1⟩ =
      [⟨"S1", 100, some 160, some 1⟩] :=
  (pull_merge_non_regression ⟨"S1", 100, some 160, some 1⟩ ⟨"S1", 100, none, none⟩
      [] [] 0 ⟨"", 0, 0, none, none⟩ []
      (by simp) rfl rfl).2.2.2.1 rfl (by rfl) (by decide)

/-- Counterexample to C1 as stated: the claim asserts the non-regression
merge for attendance records as well, but `_sync_attendance_from_firestore`
overwrites the local row unconditionally.  Concretely: the local attendance
row for student `S1` on day 0 is closed at 700; the remote copy is open
(null check-out); after the pull the local row is the open remote copy —
not unchanged. -/
theorem pull_attendance_clobbers_closed_local :
    sync_attendance_from_firestore [⟨"S1", 0, 100, none, none⟩] 0
        [⟨"S1", 0, 100, some 700, none⟩] =
      [⟨"S1", 0, 100, none, none⟩] ∧
    sync_attendance_from_firestore [⟨"S1", 0, 100, none, none⟩] 0
        [⟨"S1", 0, 100, some 700, none⟩] ≠
      [⟨"S1", 0, 100, some 700, none⟩] := by
  constructor
  · rfl
  · decide

/-- Setting a document makes it retrievable under its id. -/
lemma lookupDoc_setDoc_eq {α : Type} :
    ∀ (col : List (String × α)) (i : String) (d : α),
      lookupDoc (setDoc col i d) i = some d := by
  intro col
  induction col with
  | nil => intro i d; simp [setDoc, lookupDoc]
  | cons e rest ih =>
    intro i d
    unfold setDoc
    by_cases he : (e.1 == i) = true
    · rw [if_pos he]; simp [lookupDoc]
    · rw [if_neg he]
      unfold lookupDoc
      rw [if_neg he]
      exact ih i d

/-- Setting a document does not disturb documents under other ids. -/
lemma lookupDoc_setDoc_ne {α : Type} :
    ∀ (col : List (String × α)) (i j : String) (d : α), j ≠ i →
      lookupDoc (setDoc col j d) i = lookupDoc col i := by
  intro col
  induction col with
  | nil =>
    intro i j d hne
    simp [setDoc, lookupDoc, show (j == i) = false by simpa using hne]
  | cons e rest ih =>
    intro i j d hne
    unfold setDoc
    by_cases he : (e.1 == j) = true
    · rw [if_pos he]
      unfold lookupDoc
      rw [if_neg (by simpa using hne), if_neg (by simp_all)]
    · rw [if_neg he]
      unfold lookupDoc
      by_cases hei : (e.1 == i) = true
      · rw [if_pos hei, if_pos hei]
      · rw [if_neg hei, if_neg hei]
        exact ih i j d hne

/-- Pushing rows whose ids avoid `i` leaves the document at `i` alone. -/
lemma lookupDoc_foldl_setDoc_notmem {α : Type} (docId : α → String) (i : String) :
    ∀ (rows : List α) (col : List (String × α)), (∀ y ∈ rows, docId y ≠ i) →
      lookupDoc (rows.foldl (fun c x => setDoc c (docId x) x) col) i = lookupDoc col i := by
  intro rows
  induction rows with
  | nil => intro col _; rfl
  | cons x xs ih =>
    intro col hne
    show lookupDoc (xs.foldl _ (setDoc col (docId x) x)) i = _
    rw [ih (setDoc col (docId x) x) (fun y hy => hne y (by simp [hy])),
      lookupDoc_setDoc_ne col i (docId x) x (hne x (by simp))]

/-- After pushing a batch of rows with pairwise distinct document ids,
every row is retrievable under its id. -/
lemma lookupDoc_foldl_setDoc {α : Type} (docId : α → String) :
    ∀ (rows : List α) (col : List (String × α)) (r : α), r ∈ rows →
      (rows.map docId).Nodup →
      lookupDoc (rows.foldl (fun c x => setDoc c (docId x) x) col) (docId r) = some r := by
  intro rows
  induction rows with
  | nil => intro col r hr; simp at hr
  | cons x xs ih =>
    intro col r hr hnd
    have hnd' : (∀ y ∈ xs, ¬docId y = docId x) ∧ (xs.map docId).Nodup := by
      simpa using hnd
    rcases List.mem_cons.mp hr with rfl | hr2
    · show lookupDoc (xs.foldl _ (setDoc col (docId r) r)) (docId r) = some r
      rw [lookupDoc_foldl_setDoc_notmem docId (docId r) xs _ hnd'.1,
        lookupDoc_setDoc_eq]
    · exact ih _ r hr2 hnd'.2

/-- C8: the offline → online transition contract.  Remote initialization is
bounded by the 10-second timeout constant.  (1)/(2) On an initialization
timeout or failure the controller stays in offline mode and the buffered
local store is untouched; (3) when initialization succeeds but the push
raises, the mode falls back to offline and the local data is not deleted;
(4) when initialization and push succeed, the mode is online, the remote
store receives the buffered rows, and the local activity tables are
cleared while the students are retained; (5)-(7) every buffered attendance
/ break / nurse row whose student resolves (rows the system itself buffers
always do) is present in the pushed remote store under its composite
document id. -/
theorem offline_to_online_transition (s : OFState) (fdb : FirebaseStore)
    (ldb : LocalDB) (pe : Option String) (e : String)
    (hfb : s.firebase_db = none) (hldb : s.local_db = some ldb) :
    (transition_to_online s .timeout pe = { s with mode := "offline" })
  ∧ (transition_to_online s (.failure e) pe = { s with mode := "offline" })
  ∧ TRANSITION_INIT_TIMEOUT_SECONDS = 10
  ∧ (0 < ldb.attendance.length ∨ 0 < ldb.bathroom_breaks.length ∨
        0 < ldb.nurse_visits.length →
      transition_to_online s (.success fdb) (some e) =
        { s with mode := "offline", firebase_db := some fdb })
  ∧ (0 < ldb.attendance.length ∨ 0 < ldb.bathroom_breaks.length ∨
        0 < ldb.nurse_visits.length →
      transition_to_online s (.success fdb) none =
        { s with mode := "online",
                 firebase_db := some (sync_local_to_firebase ldb fdb),
                 local_db := some ⟨ldb.students, [], [], []⟩ })
  ∧ ((∀ r ∈ ldb.attendance, (joinStudent ldb.students r.student_uid).isSome = true) →
     (ldb.attendance.map attDocId).Nodup →
      ∀ r ∈ ldb.attendance,
        lookupDoc (sync_local_to_firebase ldb fdb).attendance (attDocId r) = some r)
  ∧ ((∀ r ∈ ldb.bathroom_breaks,
        (joinStudent ldb.students r.student_uid).isSome = true) →
     (ldb.bathroom_breaks.map breakDocId).Nodup →
      ∀ r ∈ ldb.bathroom_breaks,
        lookupDoc (sync_local_to_firebase ldb fdb).bathroom_breaks (breakDocId r) = some r)
  ∧ ((∀ r ∈ ldb.nurse_visits,
        (joinStudent ldb.students r.student_uid).isSome = true) →
     (ldb.nurse_visits.map breakDocId).Nodup →
      ∀ r ∈ ldb.nurse_visits,
        lookupDoc (sync_local_to_firebase ldb fdb).nurse_visits (breakDocId r) = some r) := by
  have hbody : ∀ (pe' : Option String),
      transition_to_online s (.success fdb) pe' =
        transitionOnlineBody { s with firebase_db := some fdb } fdb pe' := by
    intro pe'
    unfold transition_to_online
    rw [hfb]
  refine ⟨?_, ?_, rfl, ?_, ?_, ?_, ?_, ?_⟩
  · unfold transition_to_online; rw [hfb]
  · unfold transition_to_online; rw [hfb]
  · intro hlen
    rw [hbody]
    unfold transitionOnlineBody
    show (match s.local_db with | none => _ | some ldb => _) = _
    rw [hldb]
    dsimp only
    rw [if_pos (by simpa using or_assoc.mpr hlen)]
  · intro hlen
    rw [hbody]
    unfold transitionOnlineBody
    show (match s.local_db with | none => _ | some ldb => _) = _
    rw [hldb]
    dsimp only
    rw [if_pos (by simpa using or_assoc.mpr hlen)]
    rfl
  · intro hjoin hnd r hr
    unfold sync_local_to_firebase
    dsimp only
    rw [show ldb.attendance.filter
        (fun r => (joinStudent ldb.students r.student_uid).isSome) = ldb.attendance from
      List.filter_eq_self.mpr (fun a ha => by simp [hjoin a ha])]
    exact lookupDoc_foldl_setDoc attDocId ldb.attendance fdb.attendance r hr hnd
  · intro hjoin hnd r hr
    unfold sync_local_to_firebase
    dsimp only
    rw [show ldb.bathroom_breaks.filter
        (fun r => (joinStudent ldb.students r.student_uid).isSome) = ldb.bathroom_breaks from
      List.filter_eq_self.mpr (fun a ha => by simp [hjoin a ha])]
    exact lookupDoc_foldl_setDoc breakDocId ldb.bathroom_breaks fdb.bathroom_breaks r hr hnd
  · intro hjoin hnd r hr
    unfold sync_local_to_firebase
    dsimp only
    rw [show ldb.nurse_visits.filter
        (fun r => (joinStudent ldb.students r.student_uid).isSome) = ldb.nurse_visits from
      List.filter_eq_self.mpr (fun a ha => by simp [hjoin a ha])]
    exact lookupDoc_foldl_setDoc breakDocId ldb.nurse_visits fdb.nurse_visits r hr hnd

/-- Witness for C8: a kiosk that buffered one attendance row and one break
for the known student `S1` while offline reconnects successfully: the
transition goes online, pushes both rows, and clears the local activity
tables while keeping the student row. -/
theorem offline_to_online_transition_witness :
    transition_to_online
        ⟨"offline", none, some ⟨[⟨"S1", "", "1001", "Ann"⟩],
          [⟨"S1", 0, 50, some 700, none⟩], [⟨"S1", 100, some 160, some 1⟩], []⟩⟩
        (.success ⟨[], [], []⟩) none =
      ⟨"online",
       some ⟨[("S1_0", ⟨"S1", 0, 50, some 700, none⟩)],
             [("S1_100", ⟨"S1", 100, some 160, some 1⟩)], []⟩,
       some ⟨[⟨"S1", "", "1001", "Ann"⟩], [], [], []⟩⟩ :=
  ((offline_to_online_transition
      ⟨"offline", none, some ⟨[⟨"S1", "", "1001", "Ann"⟩],
        [⟨"S1", 0, 50, some 700, none⟩], [⟨"S1", 100, some 160, some 1⟩], []⟩⟩
      ⟨[], [], []⟩
      ⟨[⟨"S1", "", "1001", "Ann"⟩], [⟨"S1", 0, 50, some 700, none⟩],
        [⟨"S1", 100, some 160, some 1⟩], []⟩
      none "x" rfl rfl).2.2.2.2.1 (Or.inl (by decide))).trans (by rfl)

/-- The tail of an ordered schedule is ordered. -/
lemma schedOrdered_tail : ∀ (p : SchedPeriod) (l : List SchedPeriod),
    schedOrdered (p :: l) → schedOrdered l
  | _, [], _ => trivial
  | _, _ :: _, h => h.2.2

/-- Every entry of an ordered schedule is non-degenerate. -/
lemma schedOrdered_start_le_stop : ∀ (l : List SchedPeriod), schedOrdered l →
    ∀ p ∈ l, p.start ≤ p.stop
  | [], _, p, hp => by simp at hp
  | [q], h, p, hp => by rcases List.mem_singleton.mp hp with rfl; exact h
  | q :: r :: rest, h, p, hp => by
    rcases List.mem_cons.mp hp with rfl | hp2
    · exact h.1
    · exact schedOrdered_start_le_stop (r :: rest) h.2.2 p hp2

/-- The head of an ordered schedule stops before any later entry starts. -/
lemma schedOrdered_head_le : ∀ (p : SchedPeriod) (l : List SchedPeriod),
    schedOrdered (p :: l) → ∀ q ∈ l, p.stop ≤ q.start
  | p, [], _, q, hq => by simp at hq
  | p, r :: rest, h, q, hq => by
    rcases List.mem_cons.mp hq with rfl | hq2
    · exact h.2.1
    · have hrq := schedOrdered_head_le r rest h.2.2 q hq2
      have hrr : r.start ≤ r.stop :=
        schedOrdered_start_le_stop (r :: rest) h.2.2 r (by simp)
      have := h.2.1
      omega

/-- Dropping a prefix keeps a schedule ordered. -/
lemma schedOrdered_append : ∀ (pre l : List SchedPeriod),
    schedOrdered (pre ++ l) → schedOrdered l
  | [], _, h => h
  | p :: pre', l, h => schedOrdered_append pre' l (schedOrdered_tail p _ h)

/-- Every entry of an ordered schedule stops no later than the last one. -/
lemma schedOrdered_stop_le_last : ∀ (l : List SchedPeriod), schedOrdered l →
    ∀ p ∈ l, ∀ pL, l.getLast? = some pL → p.stop ≤ pL.stop
  | [], _, p, hp, _, _ => by simp at hp
  | [q], _, p, hp, pL, hL => by
    rcases List.mem_singleton.mp hp with rfl
    simp only [List.getLast?_singleton, Option.some.injEq] at hL
    subst hL
    exact Nat.le_refl _
  | q :: r :: rest, h, p, hp, pL, hL => by
    have hL' : (r :: rest).getLast? = some pL := by
      rwa [List.getLast?_cons_cons] at hL
    rcases List.mem_cons.mp hp with rfl | hp2
    · have hr := schedOrdered_stop_le_last (r :: rest) h.2.2 r (by simp) pL hL'
      have hrs : r.start ≤ r.stop :=
        schedOrdered_start_le_stop _ h.2.2 r (by simp)
      have := h.2.1
      omega
    · exact schedOrdered_stop_le_last (r :: rest) h.2.2 p hp2 pL hL'

/-- The scan resolves an in-period instant to that period's name. -/
lemma scanPeriods_match (now : Nat) : ∀ (pre : List SchedPeriod) (p : SchedPeriod)
    (post : List SchedPeriod), schedOrdered (pre ++ p :: post) →
    p.start ≤ now → now < p.stop →
    scanPeriods now (pre ++ p :: post) = some p.name
  | [], p, post, hord, h1, h2 => by
    cases post with
    | nil => simp only [List.nil_append]; unfold scanPeriods; rw [if_pos ⟨h1, h2⟩]
    | cons q rest =>
      simp only [List.nil_append]; unfold scanPeriods; rw [if_pos ⟨h1, h2⟩]
  | a :: pre', p, post, hord, h1, h2 => by
    have hord' : schedOrdered (pre' ++ p :: post) := schedOrdered_tail a _ hord
    have hstop : a.stop ≤ p.start :=
      schedOrdered_head_le a _ hord p (by simp)
    have ih := scanPeriods_match now pre' p post hord' h1 h2
    cases hL : pre' ++ p :: post with
    | nil => simp at hL
    | cons b L =>
      rw [hL] at ih hord'
      have hbp : b.start ≤ p.start := by
        have hpmem : p ∈ b :: L := by rw [← hL]; simp
        rcases List.mem_cons.mp hpmem with rfl | hpL
        · omega
        · have hb1 : b.start ≤ b.stop :=
            schedOrdered_start_le_stop _ hord' b (by simp)
          have hb2 := schedOrdered_head_le b L hord' p hpL
          omega
      show scanPeriods now (a :: (pre' ++ p :: post)) = some p.name
      rw [hL]
      unfold scanPeriods
      rw [if_neg (by omega), if_neg (by omega)]
      exact ih

/-- The scan resolves an instant between two adjacent periods to
"Passing". -/
lemma scanPeriods_passing (now : Nat) : ∀ (pre : List SchedPeriod)
    (p q : SchedPeriod) (post : List SchedPeriod),
    schedOrdered (pre ++ p :: q :: post) → p.stop ≤ now → now < q.start →
    scanPeriods now (pre ++ p :: q :: post) = some "Passing"
  | [], p, q, post, hord, h1, h2 => by
    have hps : p.start ≤ p.stop := schedOrdered_start_le_stop _ hord p (by simp)
    simp only [List.nil_append]
    unfold scanPeriods
    rw [if_neg (by omega), if_pos ⟨h1, h2⟩]
  | a :: pre', p, q, post, hord, h1, h2 => by
    have hord' : schedOrdered (pre' ++ p :: q :: post) := schedOrdered_tail a _ hord
    have hstop : a.stop ≤ p.start :=
      schedOrdered_head_le a _ hord p (by simp)
    have hps : p.start ≤ p.stop :=
      schedOrdered_start_le_stop _ hord' p (by simp)
    have ih := scanPeriods_passing now pre' p q post hord' h1 h2
    cases hL : pre' ++ p :: q :: post with
    | nil => simp at hL
    | cons b L =>
      rw [hL] at ih hord'
      have hbp : b.start ≤ p.start := by
        have hpmem : p ∈ b :: L := by rw [← hL]; simp
        rcases List.mem_cons.mp hpmem with rfl | hpL
        · omega
        · have hb1 : b.start ≤ b.stop :=
            schedOrdered_start_le_stop _ hord' b (by simp)
          have hb2 := schedOrdered_head_le b L hord' p hpL
          omega
      show scanPeriods now (a :: (pre' ++ p :: q :: post)) = some "Passing"
      rw [hL]
      unfold scanPeriods
      rw [if_neg (by omega), if_neg (by omega)]
      exact ih

/-- Before the first period starts nothing in the scan fires. -/
lemma scanPeriods_before (now : Nat) : ∀ (p : SchedPeriod) (l : List SchedPeriod),
    schedOrdered (p :: l) → now < p.start → scanPeriods now (p :: l) = none
  | p, [], h, hn => by unfold scanPeriods; rw [if_neg (by omega)]
  | p, q :: rest, h, hn => by
    have h1 : p.start ≤ p.stop := h.1
    have h2 : p.stop ≤ q.start := h.2.1
    unfold scanPeriods
    rw [if_neg (by omega), if_neg (by omega)]
    exact scanPeriods_before now q rest h.2.2 (by omega)

/-- After every period has stopped nothing in the scan fires. -/
lemma scanPeriods_after (now : Nat) : ∀ (l : List SchedPeriod),
    (∀ p ∈ l, p.start ≤ p.stop) → (∀ p ∈ l, p.stop ≤ now) →
    scanPeriods now l = none
  | [], _, _ => rfl
  | [p], hs, hn => by
    have := hn p (by simp)
    unfold scanPeriods
    rw [if_neg (by omega)]
  | p :: q :: rest, hs, hn => by
    have h1 := hn p (by simp)
    have h2 := hs q (by simp)
    have h3 := hn q (by simp)
    unfold scanPeriods
    rw [if_neg (by omega), if_neg (by omega)]
    exact scanPeriods_after now (q :: rest) (fun x hx => hs x (by simp [hx]))
      (fun x hx => hn x (by simp [hx]))

/-- C7 (amended): period resolution.  Over any ordered, non-overlapping
table, the GUI resolver `_determine_current_period` treats periods as
half-open: an instant with `start ≤ now < stop` resolves to that period's
name; an instant between one period's stop and the next period's start
resolves to "Passing"; an instant before the first start resolves to
"Before School"; an instant at or after the last stop resolves to "After
School" — in particular an instant equal to a period's stop does *not*
resolve to it there.  `get_period_for_time`, however, tests
`start <= t <= end` (closed): an instant equal to a period's end *does*
resolve to that period. -/
theorem period_resolution (sched : List SchedPeriod) (now : Nat)
    (hord : schedOrdered sched) :
    (∀ pre p post, sched = pre ++ p :: post → p.start ≤ now → now < p.stop →
        determineCurrentPeriod sched now = p.name)
  ∧ (∀ pre p q post, sched = pre ++ p :: q :: post → p.stop ≤ now → now < q.start →
        determineCurrentPeriod sched now = "Passing")
  ∧ (∀ p rest, sched = p :: rest → now < p.start →
        determineCurrentPeriod sched now = "Before School")
  ∧ (∀ pL, sched.getLast? = some pL → pL.stop ≤ now →
        determineCurrentPeriod sched now = "After School")
  ∧ (∀ (lab : String) (a b dt : Nat), a ≤ dt % 86400 → dt % 86400 = b →
        get_period_for_time [⟨lab, a, b⟩] dt = some (lab, b)) := by
  refine ⟨?_, ?_, ?_, ?_, ?_⟩
  · intro pre p post hsp h1 h2
    subst hsp
    unfold determineCurrentPeriod
    rw [scanPeriods_match now pre p post hord h1 h2]
  · intro pre p q post hsp h1 h2
    subst hsp
    unfold determineCurrentPeriod
    rw [scanPeriods_passing now pre p q post hord h1 h2]
  · intro p rest hsp hn
    subst hsp
    unfold determineCurrentPeriod
    rw [scanPeriods_before now p rest hord hn]
    cases hL : (p :: rest).getLast? with
    | none => simp at hL
    | some pL =>
      simp only [List.head?_cons]
      rw [if_pos hn]
  · intro pL hL hstop
    have hscan := scanPeriods_after now sched
      (schedOrdered_start_le_stop sched hord)
      (fun x hx => by
        have := schedOrdered_stop_le_last sched hord x hx pL hL
        omega)
    unfold determineCurrentPeriod
    rw [hscan]
    cases sched with
    | nil => simp at hL
    | cons p0 rest =>
      have hp0s : p0.start ≤ p0.stop :=
        schedOrdered_start_le_stop _ hord p0 (by simp)
      have hp0L : p0.stop ≤ pL.stop :=
        schedOrdered_stop_le_last _ hord p0 (by simp) pL hL
      rw [hL]
      simp only [List.head?_cons]
      rw [if_neg (by omega), if_pos hstop]
  · intro lab a b dt h1 h2
    unfold get_period_for_time
    dsimp only
    rw [List.find?_cons_of_pos _ (by simp [h1, h2.le])]
    rfl

/-- The GUI `SCHEDULE` is ordered and non-overlapping. -/
lemma SCHEDULE_ordered : schedOrdered SCHEDULE := by
  simp only [SCHEDULE, schedOrdered]
  norm_num

/-- Witness for C7: over the GUI's own `SCHEDULE`, 8:08:00 — exactly
Period 1's end — resolves to "Passing", not to Period 1; and over a
one-period table `get_period_for_time` resolves the period's exact end
instant to that period (closed bound). -/
theorem period_resolution_witness :
    determineCurrentPeriod SCHEDULE (8*3600 + 8*60) = "Passing" ∧
    get_period_for_time [⟨"1", 7*3600 + 25*60, 8*3600 + 8*60⟩] (8*3600 + 8*60) =
      some ("1", 8*3600 + 8*60) :=
  ⟨(period_resolution SCHEDULE (8*3600 + 8*60) SCHEDULE_ordered).2.1
    []
    ⟨"Period 1", 7*3600 + 25*60, 8*3600 + 8*60⟩
    ⟨"Period 2", 8*3600 + 12*60, 9*3600 + 1*60⟩
    [⟨"Period 3", 9*3600 + 5*60, 9*3600 + 48*60⟩,
     ⟨"Period 4", 9*3600 + 52*60, 10*3600 + 35*60⟩,
     ⟨"Period 5", 10*3600 + 39*60, 11*3600 + 22*60⟩,
     ⟨"Period 6", 11*3600 + 26*60, 12*3600 + 9*60⟩,
     ⟨"Period 7", 12*3600 + 13*60, 12*3600 + 56*60⟩,
     ⟨"Period 8", 13*3600, 13*3600 + 43*60⟩,
     ⟨"Period 9", 13*3600 + 47*60, 14*3600 + 30*60⟩] rfl (by norm_num) (by norm_num),
   (period_resolution SCHEDULE (8*3600 + 8*60) SCHEDULE_ordered).2.2.2.2
    "1" (7*3600 + 25*60) (8*3600 + 8*60) (8*3600 + 8*60)
    (by norm_num) (by norm_num)⟩

/-- Counterexample to C7 as stated: the claim requires that a timestamp
equal to a period's end not resolve to that period, for both cited
resolvers.  With the source's own `PERIODS` table, the instant 8:55:00 —
exactly period 2's end — is resolved by `get_period_for_time` to period 2
(its membership test is the closed `start <= t <= end`). -/
theorem get_period_for_time_closed_at_end :
    get_period_for_time PERIODS (8*3600 + 55*60) = some ("2", 8*3600 + 55*60) := by
  decide

end IdPass
